import Mathlib

/-!
Verification development for the binder-print geometry core.

The embedding below translates the geometry engine of the repository into
Lean: paper sizes, the binder-standard catalog (`src/services/binderSpecs.ts`),
the content-area resolver `getContentArea`, the outline renderer
(`src/services/outlineGenerator.ts`, function `drawOutline`; and the 2-up
variant `drawOutlineAt` of the PDF generator), the 2-up sheet planner
`generate2UpPages`, and the fit/fill scale helpers of the content processor.
Millimetre and point quantities are modelled as exact rationals; the drawing
backend is abstracted to the geometric instruction data (trim rectangle and
hole circles) that the claims are about, so crop marks and stroke styling are
not modelled.
-/

namespace BinderPrint

/-- Paper dimensions in millimetres. -/
structure Paper where
  width : ℚ
  height : ℚ
deriving DecidableEq, Repr

/-- The two paper sizes of `src/types/index.ts`. -/
inductive PaperSize
  | A4
  | A5
deriving DecidableEq, Repr

/-- `PAPER_SIZES` from `src/types/index.ts`: A4 is 210 by 297 mm, A5 is 148 by 210 mm. -/
def PAPER_SIZES : PaperSize → Paper
  | .A4 => ⟨210, 297⟩
  | .A5 => ⟨148, 210⟩

/-- The `PageSide` union type: which edge of the bound page carries the holes. -/
inductive PageSide
  | left
  | right
deriving DecidableEq, Repr

/-- The closed `BinderType` union of the five catalog identifiers. -/
inductive BinderType
  | a5_20_hole
  | a5_2_hole
  | a5_6_hole_filofax
  | a5_6_hole_standard
  | a4_4_hole
deriving DecidableEq, Repr

/-- The `BinderSpec` interface: catalog entry for one binder standard.
`getHolePositions` maps a sheet height (mm) to the ordered list of hole
centre offsets measured from the top of the sheet (mm). -/
structure BinderSpec where
  id : String
  name : String
  paperSize : PaperSize
  holeCount : ℕ
  holeDiameter : ℚ
  edgeDistance : ℚ
  getHolePositions : ℚ → List ℚ

/-- Hole diameter constant (6 mm), `HOLE_DIAMETER` in `binderSpecs.ts`. -/
def HOLE_DIAMETER : ℚ := 6

/-- A5 20-hole (Japanese standard): pitch 9.7 mm, 20 holes centred on the sheet. -/
def a5_20_hole : BinderSpec where
  id := "a5-20-hole"
  name := "A5 20-Hole (Japanese)"
  paperSize := .A5
  holeCount := 20
  holeDiameter := HOLE_DIAMETER
  edgeDistance := 5.5
  getHolePositions := fun pageHeight =>
    let pitch : ℚ := 9.7
    let totalSpan : ℚ := pitch * 19
    let startY : ℚ := (pageHeight - totalSpan) / 2
    (List.range 20).map fun i : ℕ => startY + (i : ℚ) * pitch

/-- A5 2-hole (ISO 838): 80 mm spacing, centred on the sheet. -/
def a5_2_hole : BinderSpec where
  id := "a5-2-hole"
  name := "A5 2-Hole (ISO 838)"
  paperSize := .A5
  holeCount := 2
  holeDiameter := HOLE_DIAMETER
  edgeDistance := 12
  getHolePositions := fun pageHeight =>
    let spacing : ℚ := 80
    let centerY : ℚ := pageHeight / 2
    [centerY - spacing / 2, centerY + spacing / 2]

/-- A5 6-hole Filofax style: 19 mm pitch within groups, 50.8 mm central gap. -/
def a5_6_hole_filofax : BinderSpec where
  id := "a5-6-hole-filofax"
  name := "A5 6-Hole (Filofax)"
  paperSize := .A5
  holeCount := 6
  holeDiameter := HOLE_DIAMETER
  edgeDistance := 12
  getHolePositions := fun pageHeight =>
    let pitch : ℚ := 19
    let centralGap : ℚ := 50.8
    let centerY : ℚ := pageHeight / 2
    let topGroupCenter : ℚ := centerY - centralGap / 2 - pitch
    let bottomGroupCenter : ℚ := centerY + centralGap / 2 + pitch
    [topGroupCenter - pitch, topGroupCenter, topGroupCenter + pitch,
     bottomGroupCenter - pitch, bottomGroupCenter, bottomGroupCenter + pitch]

/-- A5 6-hole Standard: 19 mm pitch within groups, 70 mm central gap. -/
def a5_6_hole_standard : BinderSpec where
  id := "a5-6-hole-standard"
  name := "A5 6-Hole (Standard)"
  paperSize := .A5
  holeCount := 6
  holeDiameter := HOLE_DIAMETER
  edgeDistance := 12
  getHolePositions := fun pageHeight =>
    let pitch : ℚ := 19
    let centralGap : ℚ := 70
    let centerY : ℚ := pageHeight / 2
    let topGroupCenter : ℚ := centerY - centralGap / 2 - pitch
    let bottomGroupCenter : ℚ := centerY + centralGap / 2 + pitch
    [topGroupCenter - pitch, topGroupCenter, topGroupCenter + pitch,
     bottomGroupCenter - pitch, bottomGroupCenter, bottomGroupCenter + pitch]

/-- A4 4-hole (European standard): 80 mm spacing between adjacent holes. -/
def a4_4_hole : BinderSpec where
  id := "a4-4-hole"
  name := "A4 4-Hole (European)"
  paperSize := .A4
  holeCount := 4
  holeDiameter := HOLE_DIAMETER
  edgeDistance := 11
  getHolePositions := fun pageHeight =>
    let spacing : ℚ := 80
    let totalSpan : ℚ := spacing * 3
    let startY : ℚ := (pageHeight - totalSpan) / 2
    (List.range 4).map fun i : ℕ => startY + (i : ℚ) * spacing

/-- `BINDER_SPECS`, the closed catalog keyed by the typed identifier. -/
def BINDER_SPECS : BinderType → BinderSpec
  | .a5_20_hole => a5_20_hole
  | .a5_2_hole => a5_2_hole
  | .a5_6_hole_filofax => a5_6_hole_filofax
  | .a5_6_hole_standard => a5_6_hole_standard
  | .a4_4_hole => a4_4_hole

/-- The string keys of the `BINDER_SPECS` record object. -/
def binderSpecKeys : List String :=
  ["a5-20-hole", "a5-2-hole", "a5-6-hole-filofax", "a5-6-hole-standard", "a4-4-hole"]

/-- JavaScript-level semantics of `getBinderSpec`, which evaluates
`BINDER_SPECS[type]`: indexing the record object with an arbitrary string key
yields the entry when the key is present and `undefined` (modelled as `none`)
otherwise. -/
def getBinderSpecById (id : String) : Option BinderSpec :=
  if id = "a5-20-hole" then some a5_20_hole
  else if id = "a5-2-hole" then some a5_2_hole
  else if id = "a5-6-hole-filofax" then some a5_6_hole_filofax
  else if id = "a5-6-hole-standard" then some a5_6_hole_standard
  else if id = "a4-4-hole" then some a4_4_hole
  else none

/-- The record returned by `getContentArea` (all fields in mm). -/
structure ContentArea where
  width : ℚ
  height : ℚ
  offsetX : ℚ
  offsetY : ℚ
deriving DecidableEq, Repr

/-- The hole margin computed inside `getContentArea`:
`spec.edgeDistance + spec.holeDiameter / 2 + padding` with a 5 mm padding
when enabled. -/
def holeMargin (binderType : BinderType) (enablePadding : Bool) : ℚ :=
  (BINDER_SPECS binderType).edgeDistance + (BINDER_SPECS binderType).holeDiameter / 2 +
    (if enablePadding then 5 else 0)

/-- `getContentArea` from `binderSpecs.ts`: the rectangle within the sheet
available for content, given the binder standard, the target paper size, the
page side and the padding flag. -/
def getContentArea (binderType : BinderType) (paperSize : PaperSize)
    (pageSide : PageSide) (enablePadding : Bool) : ContentArea :=
  let spec := BINDER_SPECS binderType
  let paper := PAPER_SIZES paperSize
  let binderPaper := PAPER_SIZES spec.paperSize
  let contentWidth := binderPaper.width - holeMargin binderType enablePadding
  let contentHeight := binderPaper.height
  if paperSize = spec.paperSize then
    { width := contentWidth, height := contentHeight
      offsetX := if pageSide = .left then 0 else holeMargin binderType enablePadding
      offsetY := 0 }
  else if paperSize = .A4 ∧ spec.paperSize = .A5 then
    let baseX := (paper.width - binderPaper.width) / 2
    { width := contentWidth, height := contentHeight
      offsetX := if pageSide = .right then baseX + holeMargin binderType enablePadding else baseX
      offsetY := (paper.height - binderPaper.height) / 2 }
  else
    { width := contentWidth, height := contentHeight
      offsetX := if pageSide = .right then holeMargin binderType enablePadding else 0
      offsetY := 0 }

/-- Millimetres to PDF points: `(mm / 25.4) * 72`. -/
def mmToPoints (mm : ℚ) : ℚ := mm / 25.4 * 72

/-- An axis-aligned rectangle drawing instruction (PDF points, origin bottom left). -/
structure Rect where
  x : ℚ
  y : ℚ
  width : ℚ
  height : ℚ
deriving DecidableEq, Repr

/-- A circle drawing instruction (PDF points). -/
structure Circle where
  x : ℚ
  y : ℚ
  radius : ℚ
deriving DecidableEq, Repr

/-- The geometric content of an outline page relevant here: the trim
rectangle and the hole circles. Crop marks are not modelled. -/
structure OutlineMarks where
  trimRect : Rect
  holes : List Circle
deriving DecidableEq, Repr

/-- The `position` parameter of `drawOutline` for the 2-up branch. -/
inductive OutlinePosition
  | top
  | bottom
  | single
deriving DecidableEq, Repr

/-- `drawOutline` from `outlineGenerator.ts`: computes the mirrored area of
the binder sheet on the physical page and emits the trim rectangle and one
circle per hole position. The single-page branch centres the target area and
mirrors it horizontally; the hole X sits at `areaX + targetWidth − edge` for
side `left` and at `areaX + edge` for side `right`. -/
def drawOutline (binderType : BinderType) (paperSize : PaperSize) (pageSide : PageSide)
    (is2Up : Bool := false) (position : OutlinePosition := .single) : OutlineMarks :=
  let spec := BINDER_SPECS binderType
  let paper := PAPER_SIZES paperSize
  let binderPaper := PAPER_SIZES spec.paperSize
  let pageWidth := mmToPoints paper.width
  let pageHeight := mmToPoints paper.height
  let targetWidth := mmToPoints binderPaper.width
  let targetHeight := mmToPoints binderPaper.height
  let area : ℚ × ℚ :=
    if is2Up = true ∧ paperSize = .A4 ∧ spec.paperSize = .A5 then
      if position = .top then (0, (pageWidth - targetHeight) / 2)
      else (targetWidth, (pageWidth - targetHeight) / 2)
    else
      let areaX0 := (pageWidth - targetWidth) / 2
      (pageWidth - areaX0 - targetWidth, (pageHeight - targetHeight) / 2)
  let areaX := area.1
  let areaY := area.2
  let holePositions := spec.getHolePositions binderPaper.height
  let holeRadius := mmToPoints spec.holeDiameter / 2
  let edgeDistance := mmToPoints spec.edgeDistance
  let holeX :=
    if pageSide = .left then areaX + targetWidth - edgeDistance
    else areaX + edgeDistance
  { trimRect := ⟨areaX, areaY, targetWidth, targetHeight⟩
    holes := holePositions.map fun posY => ⟨holeX, areaY + mmToPoints posY, holeRadius⟩ }

/-- `drawOutlineAt` from the PDF generator (2-up mode): draws the trim
rectangle at the given sub-area and one circle per hole position. Note the
hole X here sits at `areaX + edge` for side `left` and at
`areaX + areaWidth − edge` for side `right` — the opposite assignment to
`drawOutline`. -/
def drawOutlineAt (binderType : BinderType) (pageSide : PageSide)
    (areaX areaY areaWidth areaHeight : ℚ) : OutlineMarks :=
  let spec := BINDER_SPECS binderType
  let binderPaper := PAPER_SIZES spec.paperSize
  let holeRadius := mmToPoints spec.holeDiameter / 2
  let edgeDistance := mmToPoints spec.edgeDistance
  let holePositions := spec.getHolePositions binderPaper.height
  let holeX :=
    if pageSide = .left then areaX + edgeDistance
    else areaX + areaWidth - edgeDistance
  { trimRect := ⟨areaX, areaY, areaWidth, areaHeight⟩
    holes := holePositions.map fun posY => ⟨holeX, areaY + mmToPoints posY, holeRadius⟩ }

/-- One iteration of the `generate2UpPages` loop: a content sheet carrying
one or two pages in fixed sub-areas, paired with an outline sheet. The
sub-area rectangles record the area arguments the source passes to
`drawContentPageAt` and `drawOutlineAt` (PDF points, origin bottom left);
the image placement inside a content sub-area is abstracted. -/
structure TwoUpSheetPair (α : Type) where
  firstPage : α
  secondPage : Option α
  firstContentArea : Rect
  secondContentArea : Option Rect
  firstOutline : OutlineMarks
  secondOutline : Option OutlineMarks
deriving DecidableEq, Repr

/-- The sheet pair built by one iteration of the `generate2UpPages` loop:
the first page is drawn in the top half of the A4 content sheet, the second
(when present) in the bottom half; their outlines are drawn at the mirrored
X position, the first at the bottom and the second at the top. -/
def twoUpPair {α : Type} (binderType : BinderType) (pageSide : PageSide)
    (firstPage : α) (secondPage : Option α) : TwoUpSheetPair α :=
  let paper := PAPER_SIZES .A4
  let a5Paper := PAPER_SIZES .A5
  let pageWidthPt := mmToPoints paper.width
  let pageHeightPt := mmToPoints paper.height
  let a5WidthPt := mmToPoints a5Paper.width
  let a5HeightPt := mmToPoints a5Paper.height
  { firstPage := firstPage
    secondPage := secondPage
    firstContentArea := ⟨0, pageHeightPt - a5HeightPt, a5WidthPt, a5HeightPt⟩
    secondContentArea := secondPage.map fun _ => ⟨0, 0, a5WidthPt, a5HeightPt⟩
    firstOutline := drawOutlineAt binderType pageSide (pageWidthPt - a5WidthPt) 0 a5WidthPt a5HeightPt
    secondOutline := secondPage.map fun _ =>
      drawOutlineAt binderType pageSide (pageWidthPt - a5WidthPt) (pageHeightPt - a5HeightPt)
        a5WidthPt a5HeightPt }

/-- `generate2UpPages`: consumes the content pages two at a time
(`for i = 0; i < pages.length; i += 2`), emitting one content/outline sheet
pair per step; the second slot of the final pair is empty when the page
count is odd. -/
def generate2UpPages {α : Type} (binderType : BinderType) (pageSide : PageSide) :
    List α → List (TwoUpSheetPair α)
  | [] => []
  | [p] => [twoUpPair binderType pageSide p none]
  | p :: q :: rest => twoUpPair binderType pageSide p (some q) ::
      generate2UpPages binderType pageSide rest

/-- The 2-up mode decision in `generatePdf`:
`paperSize === A4 && spec.paperSize === A5 && pages.length > 1`. -/
def use2Up (binderType : BinderType) (paperSize : PaperSize) (numPages : ℕ) : Bool :=
  decide (paperSize = .A4) && decide ((BINDER_SPECS binderType).paperSize = .A5) &&
    decide (numPages > 1)

/-- `calculateFitScale` from the content processor: the largest scale at
which the content still fits inside the target area. -/
def calculateFitScale (contentWidth contentHeight targetWidth targetHeight : ℚ) : ℚ :=
  min (targetWidth / contentWidth) (targetHeight / contentHeight)

/-- `calculateFillScale` from the content processor: the smallest scale at
which the content covers the target area (may crop). -/
def calculateFillScale (contentWidth contentHeight targetWidth targetHeight : ℚ) : ℚ :=
  max (targetWidth / contentWidth) (targetHeight / contentHeight)

/-- Every catalog entry returns exactly `holeCount` offsets at every sheet height. -/
lemma holePositions_length (bt : BinderType) (h : ℚ) :
    ((BINDER_SPECS bt).getHolePositions h).length = (BINDER_SPECS bt).holeCount := by
  cases bt <;>
    simp [BINDER_SPECS, a5_20_hole, a5_2_hole, a5_6_hole_filofax, a5_6_hole_standard, a4_4_hole]

/-- An arithmetic progression with nonnegative step is nondecreasing. -/
lemma chain'_le_range_map (n : ℕ) (a p : ℚ) (hp : 0 ≤ p) :
    List.Chain' (· ≤ ·) ((List.range n).map fun i : ℕ => a + (i : ℚ) * p) := by
  rw [List.chain'_map]
  cases n with
  | zero => simp
  | succ m =>
    rw [List.chain'_range_succ]
    intro k _
    have hk : (k : ℚ) ≤ ((k + 1 : ℕ) : ℚ) := by push_cast; linarith
    have := mul_le_mul_of_nonneg_right hk hp
    linarith

/-- C4: for every catalog standard and every sheet height between 100 mm and
400 mm, `getHolePositions` returns exactly `holeCount` offsets and the
returned list is nondecreasing. -/
theorem holePositions_count_monotone (bt : BinderType) (h : ℚ)
    (_hlo : 100 ≤ h) (_hhi : h ≤ 400) :
    ((BINDER_SPECS bt).getHolePositions h).length = (BINDER_SPECS bt).holeCount ∧
    List.Chain' (· ≤ ·) ((BINDER_SPECS bt).getHolePositions h) := by
  refine ⟨holePositions_length bt h, ?_⟩
  cases bt
  case a5_20_hole =>
    simp only [BINDER_SPECS, a5_20_hole]
    exact chain'_le_range_map 20 _ _ (by norm_num)
  case a5_2_hole =>
    simp only [BINDER_SPECS, a5_2_hole, List.chain'_cons, List.chain'_singleton, and_true]
    linarith
  case a5_6_hole_filofax =>
    simp only [BINDER_SPECS, a5_6_hole_filofax, List.chain'_cons, List.chain'_singleton, and_true]
    refine ⟨?_, ?_, ?_, ?_, ?_⟩ <;> linarith
  case a5_6_hole_standard =>
    simp only [BINDER_SPECS, a5_6_hole_standard, List.chain'_cons, List.chain'_singleton, and_true]
    refine ⟨?_, ?_, ?_, ?_, ?_⟩ <;> linarith
  case a4_4_hole =>
    simp only [BINDER_SPECS, a4_4_hole]
    exact chain'_le_range_map 4 _ _ (by norm_num)

/-- C4 witness: the 2-hole standard at sheet height 210 mm. -/
theorem holePositions_count_monotone_witness :
    (100 : ℚ) ≤ 210 ∧ (210 : ℚ) ≤ 400 ∧
    (((BINDER_SPECS .a5_2_hole).getHolePositions 210).length =
        (BINDER_SPECS .a5_2_hole).holeCount ∧
      List.Chain' (· ≤ ·) ((BINDER_SPECS .a5_2_hole).getHolePositions 210)) :=
  ⟨by norm_num, by norm_num,
    holePositions_count_monotone .a5_2_hole 210 (by norm_num) (by norm_num)⟩

/-- C3: when the target paper size equals the native size of the standard,
`getContentArea` fills the full native height, reduces the width by the hole
margin, keeps `offsetY = 0`, and offsets the content horizontally by the hole
margin exactly for right pages; in particular the 20-hole standard on A5
target, side left, padding off yields width 139.5, height 210 and zero
offsets, with a hole margin of 8.5 mm. -/
theorem getContentArea_native (bt : BinderType) (ps : PaperSize) (side : PageSide)
    (pad : Bool) (hps : ps = (BINDER_SPECS bt).paperSize) :
    getContentArea bt ps side pad =
      { width := (PAPER_SIZES (BINDER_SPECS bt).paperSize).width - holeMargin bt pad
        height := (PAPER_SIZES (BINDER_SPECS bt).paperSize).height
        offsetX := if side = .left then 0 else holeMargin bt pad
        offsetY := 0 } ∧
    getContentArea .a5_20_hole .A5 .left false = ⟨139.5, 210, 0, 0⟩ ∧
    holeMargin .a5_20_hole false = 8.5 := by
  subst hps
  refine ⟨by simp [getContentArea], ?_, ?_⟩
  · norm_num [getContentArea, holeMargin, BINDER_SPECS, a5_20_hole, PAPER_SIZES, HOLE_DIAMETER]
  · norm_num [holeMargin, BINDER_SPECS, a5_20_hole, HOLE_DIAMETER]

/-- C3 witness: the native-size case instantiated at the 20-hole standard. -/
theorem getContentArea_native_witness :
    getContentArea .a5_20_hole .A5 .left false =
      { width := (PAPER_SIZES (BINDER_SPECS BinderType.a5_20_hole).paperSize).width -
          holeMargin .a5_20_hole false
        height := (PAPER_SIZES (BINDER_SPECS BinderType.a5_20_hole).paperSize).height
        offsetX := if PageSide.left = PageSide.left then 0 else holeMargin .a5_20_hole false
        offsetY := 0 } ∧
    getContentArea .a5_20_hole .A5 .left false = ⟨139.5, 210, 0, 0⟩ ∧
    holeMargin .a5_20_hole false = 8.5 :=
  getContentArea_native .a5_20_hole .A5 .left false (by rfl)

/-- C5: looking up a standard id outside the closed five-entry catalog yields
no binder spec — at the JavaScript level indexing the record returns
`undefined`, modelled as `none` — so the lookup fails for the caller with no
silent fallback to a default standard. -/
theorem getBinderSpec_unknown_fails (id : String) (h : id ∉ binderSpecKeys) :
    getBinderSpecById id = none := by
  simp only [binderSpecKeys, List.mem_cons, List.not_mem_nil, or_false, not_or] at h
  obtain ⟨h1, h2, h3, h4, h5⟩ := h
  simp [getBinderSpecById, h1, h2, h3, h4, h5]

/-- C5 witness: a concrete id outside the catalog. -/
theorem getBinderSpec_unknown_fails_witness :
    "a6-fantasy-hole" ∉ binderSpecKeys ∧ getBinderSpecById "a6-fantasy-hole" = none :=
  ⟨by decide, getBinderSpec_unknown_fails "a6-fantasy-hole" (by decide)⟩

/-- C1 (amended): both outline paths draw exactly `holeCount` circles whose
vertical positions are the trim rectangle Y plus the hole centre offsets.
The horizontal position in `drawOutline` is `x + width − edgeDistance` for
side left and `x + edgeDistance` for side right, as the claim states; but
`drawOutlineAt` uses the opposite assignment, `x + edgeDistance` for side
left and `x + width − edgeDistance` for side right. -/
theorem outline_hole_circles (bt : BinderType) (ps : PaperSize) (side : PageSide)
    (is2Up : Bool) (pos : OutlinePosition) (aX aY aW aH : ℚ) :
    ((drawOutline bt ps side is2Up pos).holes.length = (BINDER_SPECS bt).holeCount ∧
      (drawOutline bt ps side is2Up pos).holes =
        ((BINDER_SPECS bt).getHolePositions
            (PAPER_SIZES (BINDER_SPECS bt).paperSize).height).map fun posY =>
          ⟨if side = .left then
              (drawOutline bt ps side is2Up pos).trimRect.x +
                (drawOutline bt ps side is2Up pos).trimRect.width -
                mmToPoints (BINDER_SPECS bt).edgeDistance
            else
              (drawOutline bt ps side is2Up pos).trimRect.x +
                mmToPoints (BINDER_SPECS bt).edgeDistance,
            (drawOutline bt ps side is2Up pos).trimRect.y + mmToPoints posY,
            mmToPoints (BINDER_SPECS bt).holeDiameter / 2⟩) ∧
    ((drawOutlineAt bt side aX aY aW aH).holes.length = (BINDER_SPECS bt).holeCount ∧
      (drawOutlineAt bt side aX aY aW aH).holes =
        ((BINDER_SPECS bt).getHolePositions
            (PAPER_SIZES (BINDER_SPECS bt).paperSize).height).map fun posY =>
          ⟨if side = .left then aX + mmToPoints (BINDER_SPECS bt).edgeDistance
            else aX + aW - mmToPoints (BINDER_SPECS bt).edgeDistance,
            aY + mmToPoints posY,
            mmToPoints (BINDER_SPECS bt).holeDiameter / 2⟩) := by
  refine ⟨⟨?_, ?_⟩, ?_, ?_⟩
  · simp [drawOutline, holePositions_length]
  · cases side <;> simp [drawOutline]
  · simp [drawOutlineAt, holePositions_length]
  · cases side <;> simp [drawOutlineAt]

/-- C1 counterexample: for the 2-hole standard, side left, with a sub-area at
the origin of A5 dimensions in points, `drawOutlineAt` places both hole
circles at `x + edgeDistance` (12 mm in points), not at
`x + width − edgeDistance` as the claim states for side left. -/
theorem drawOutlineAt_left_edge_counterexample :
    ((drawOutlineAt .a5_2_hole .left 0 0 (mmToPoints 148) (mmToPoints 210)).holes.map
        Circle.x) = [mmToPoints 12, mmToPoints 12] ∧
    mmToPoints 12 ≠ 0 + mmToPoints 148 - mmToPoints 12 := by
  constructor
  · simp [drawOutlineAt, BINDER_SPECS, a5_2_hole]
  · norm_num [mmToPoints]

/-- Symmetry of an arithmetic progression of `n` terms about its midpoint:
entries `i` and `n − 1 − i` sum to `2a + (n − 1)p`. -/
lemma range_map_symm (n : ℕ) (a p h : ℚ) (i : ℕ) (x y : ℚ)
    (hsum : 2 * a + ((n - 1 : ℕ) : ℚ) * p = h)
    (hx : ((List.range n).map fun k : ℕ => a + (k : ℚ) * p).get? i = some x)
    (hy : ((List.range n).map fun k : ℕ => a + (k : ℚ) * p).get? (n - 1 - i) = some y) :
    x + y = h := by
  have hi : i < n := by
    by_contra hcon
    push_neg at hcon
    rw [List.get?_eq_none.2 (by simpa using hcon)] at hx
    cases hx
  have hj : n - 1 - i < n := by omega
  rw [List.get?_map, List.get?_range hi, Option.map_some'] at hx
  rw [List.get?_map, List.get?_range hj, Option.map_some'] at hy
  obtain rfl : x = a + (i : ℚ) * p := (Option.some_inj.1 hx).symm
  obtain rfl : y = a + ((n - 1 - i : ℕ) : ℚ) * p := (Option.some_inj.1 hy).symm
  have hcast : (i : ℚ) + ((n - 1 - i : ℕ) : ℚ) = ((n - 1 : ℕ) : ℚ) := by
    have hnat : i + (n - 1 - i) = n - 1 := by omega
    exact_mod_cast congrArg (Nat.cast : ℕ → ℚ) hnat
  calc a + (i : ℚ) * p + (a + ((n - 1 - i : ℕ) : ℚ) * p)
      = 2 * a + ((i : ℚ) + ((n - 1 - i : ℕ) : ℚ)) * p := by ring
    _ = 2 * a + ((n - 1 : ℕ) : ℚ) * p := by rw [hcast]
    _ = h := hsum

/-- C8: for every catalog standard (all of which have an even hole count)
and every sheet height, the hole-centre list is symmetric about half the
sheet height: the entry at index `i` plus the entry at index
`holeCount − 1 − i` equals the sheet height, exactly (rational arithmetic,
hence within any tolerance). -/
theorem holePositions_symmetric (bt : BinderType) (h : ℚ) (i : ℕ) (x y : ℚ)
    (hx : ((BINDER_SPECS bt).getHolePositions h).get? i = some x)
    (hy : ((BINDER_SPECS bt).getHolePositions h).get?
        ((BINDER_SPECS bt).holeCount - 1 - i) = some y) :
    x + y = h := by
  cases bt
  case a5_20_hole =>
    simp only [BINDER_SPECS, a5_20_hole] at hx hy
    exact range_map_symm 20 _ _ h i x y (by push_cast; ring_nf) hx hy
  case a4_4_hole =>
    simp only [BINDER_SPECS, a4_4_hole] at hx hy
    exact range_map_symm 4 _ _ h i x y (by push_cast; ring_nf) hx hy
  case a5_2_hole =>
    simp only [BINDER_SPECS, a5_2_hole] at hx hy
    have hi : i < 2 := by
      by_contra hcon
      push_neg at hcon
      rw [List.get?_eq_none.2 (by simpa using hcon)] at hx
      cases hx
    interval_cases i <;> simp only [List.get?] at hx hy <;>
      obtain rfl := Option.some_inj.1 hx <;> obtain rfl := Option.some_inj.1 hy <;> ring
  case a5_6_hole_filofax =>
    simp only [BINDER_SPECS, a5_6_hole_filofax] at hx hy
    have hi : i < 6 := by
      by_contra hcon
      push_neg at hcon
      rw [List.get?_eq_none.2 (by simpa using hcon)] at hx
      cases hx
    interval_cases i <;> simp only [List.get?] at hx hy <;>
      obtain rfl := Option.some_inj.1 hx <;> obtain rfl := Option.some_inj.1 hy <;> ring
  case a5_6_hole_standard =>
    simp only [BINDER_SPECS, a5_6_hole_standard] at hx hy
    have hi : i < 6 := by
      by_contra hcon
      push_neg at hcon
      rw [List.get?_eq_none.2 (by simpa using hcon)] at hx
      cases hx
    interval_cases i <;> simp only [List.get?] at hx hy <;>
      obtain rfl := Option.some_inj.1 hx <;> obtain rfl := Option.some_inj.1 hy <;> ring

/-- C8 witness: the ISO 838 2-hole standard at sheet height 297 mm, whose
hole centres are 108.5 and 188.5. -/
theorem holePositions_symmetric_witness : (108.5 : ℚ) + 188.5 = 297 :=
  holePositions_symmetric .a5_2_hole 297 0 108.5 188.5
    (by norm_num [BINDER_SPECS, a5_2_hole]) (by norm_num [BINDER_SPECS, a5_2_hole])

/-- C9: with strictly positive content and target dimensions, the fit scale
makes the scaled content fit inside the target in both dimensions, is tight
in at least one dimension, and never exceeds the fill scale. -/
theorem fitScale_fits_and_below_fillScale (cw ch tw th : ℚ)
    (hcw : 0 < cw) (hch : 0 < ch) (_htw : 0 < tw) (_hth : 0 < th) :
    cw * calculateFitScale cw ch tw th ≤ tw ∧
    ch * calculateFitScale cw ch tw th ≤ th ∧
    (cw * calculateFitScale cw ch tw th = tw ∨ ch * calculateFitScale cw ch tw th = th) ∧
    calculateFitScale cw ch tw th ≤ calculateFillScale cw ch tw th := by
  unfold calculateFitScale calculateFillScale
  refine ⟨?_, ?_, ?_, min_le_max⟩
  · calc cw * min (tw / cw) (th / ch) ≤ cw * (tw / cw) :=
        mul_le_mul_of_nonneg_left (min_le_left _ _) hcw.le
      _ = tw := by field_simp
  · calc ch * min (tw / cw) (th / ch) ≤ ch * (th / ch) :=
        mul_le_mul_of_nonneg_left (min_le_right _ _) hch.le
      _ = th := by field_simp
  · rcases min_choice (tw / cw) (th / ch) with hm | hm
    · left; rw [hm]; field_simp
    · right; rw [hm]; field_simp

/-- Any sheet pair produced by `generate2UpPages` is built by `twoUpPair`. -/
lemma mem_generate2UpPages {α : Type} (bt : BinderType) (side : PageSide) :
    ∀ (pages : List α) (s : TwoUpSheetPair α), s ∈ generate2UpPages bt side pages →
      ∃ p q, s = twoUpPair bt side p q
  | [], _, hs => by cases hs
  | [p], s, hs => by
      simp only [generate2UpPages, List.mem_singleton] at hs
      exact ⟨p, none, hs⟩
  | p :: q :: rest, s, hs => by
      simp only [generate2UpPages, List.mem_cons] at hs
      rcases hs with rfl | hs
      · exact ⟨p, some q, rfl⟩
      · exact mem_generate2UpPages bt side rest s hs

/-- C2 (amended): in 2-up mode each outline sub-area sits at the horizontally
mirrored X position `sheetWidth − subAreaWidth`, but the vertical positions
are swapped rather than preserved: the page whose content occupies the top
half of the sheet has its outline drawn in the bottom half (y = 0), and the
bottom page has its outline drawn in the top half. -/
theorem twoUp_outline_mirrored_flipped {α : Type} (bt : BinderType) (side : PageSide)
    (pages : List α) (s : TwoUpSheetPair α) (hs : s ∈ generate2UpPages bt side pages) :
    s.firstContentArea =
      ⟨0, mmToPoints (PAPER_SIZES .A4).height - mmToPoints (PAPER_SIZES .A5).height,
        mmToPoints (PAPER_SIZES .A5).width, mmToPoints (PAPER_SIZES .A5).height⟩ ∧
    s.firstOutline.trimRect =
      ⟨mmToPoints (PAPER_SIZES .A4).width - mmToPoints (PAPER_SIZES .A5).width, 0,
        mmToPoints (PAPER_SIZES .A5).width, mmToPoints (PAPER_SIZES .A5).height⟩ ∧
    (∀ r, s.secondContentArea = some r →
      r = ⟨0, 0, mmToPoints (PAPER_SIZES .A5).width, mmToPoints (PAPER_SIZES .A5).height⟩) ∧
    (∀ o, s.secondOutline = some o →
      o.trimRect =
        ⟨mmToPoints (PAPER_SIZES .A4).width - mmToPoints (PAPER_SIZES .A5).width,
          mmToPoints (PAPER_SIZES .A4).height - mmToPoints (PAPER_SIZES .A5).height,
          mmToPoints (PAPER_SIZES .A5).width, mmToPoints (PAPER_SIZES .A5).height⟩) := by
  obtain ⟨p, q, rfl⟩ := mem_generate2UpPages bt side pages s hs
  refine ⟨rfl, rfl, ?_, ?_⟩
  · intro r hr
    cases q <;> simp only [twoUpPair, Option.map_none', Option.map_some'] at hr
    · cases hr
    · exact (Option.some_inj.1 hr).symm
  · intro o ho
    cases q <;> simp only [twoUpPair, Option.map_none', Option.map_some'] at ho
    · cases ho
    · exact congrArg OutlineMarks.trimRect (Option.some_inj.1 ho).symm

/-- C2 witness: the mirrored X and swapped Y of the first outline sub-area,
for the sheet pair of two concrete pages. -/
theorem twoUp_outline_mirrored_flipped_witness :
    (twoUpPair BinderType.a5_20_hole PageSide.left (0 : ℕ) (some 1)).firstOutline.trimRect =
      ⟨mmToPoints (PAPER_SIZES .A4).width - mmToPoints (PAPER_SIZES .A5).width, 0,
        mmToPoints (PAPER_SIZES .A5).width, mmToPoints (PAPER_SIZES .A5).height⟩ :=
  (twoUp_outline_mirrored_flipped BinderType.a5_20_hole PageSide.left [0, 1]
    (twoUpPair BinderType.a5_20_hole PageSide.left 0 (some 1))
    (by simp [generate2UpPages])).2.1

/-- C2 counterexample: with two pages, the first page has its content
sub-area in the top half (y is 87 mm in points) while its outline sub-area
sits at the bottom (y = 0): the outline vertical position is not preserved. -/
theorem twoUp_outline_vertical_counterexample :
    ((generate2UpPages BinderType.a5_20_hole PageSide.left ([0, 1] : List ℕ)).map fun s =>
        (s.firstContentArea.y, s.firstOutline.trimRect.y)) = [(mmToPoints 87, 0)] ∧
    mmToPoints 87 ≠ (0 : ℚ) := by
  constructor
  · simp only [generate2UpPages, twoUpPair, drawOutlineAt, List.map_cons, List.map_nil,
      PAPER_SIZES]
    norm_num [mmToPoints]
  · norm_num [mmToPoints]

/-- Length of the 2-up plan: one sheet pair per two pages, rounded up. -/
lemma generate2UpPages_length {α : Type} (bt : BinderType) (side : PageSide) :
    ∀ pages : List α, (generate2UpPages bt side pages).length = (pages.length + 1) / 2
  | [] => by simp [generate2UpPages]
  | [_] => by simp [generate2UpPages]
  | _ :: _ :: rest => by
      simp only [generate2UpPages, List.length_cons]
      rw [generate2UpPages_length bt side rest]
      omega

/-- The sheet pair at index `k` holds page `2k` on top and page `2k + 1`
(when it exists) at the bottom. -/
lemma generate2UpPages_get? {α : Type} (bt : BinderType) (side : PageSide) :
    ∀ (pages : List α) (k : ℕ) (s : TwoUpSheetPair α),
      (generate2UpPages bt side pages).get? k = some s →
        pages.get? (2 * k) = some s.firstPage ∧ s.secondPage = pages.get? (2 * k + 1)
  | [], k, s => by
      intro hs
      simp [generate2UpPages] at hs
  | [p], k, s => by
      intro hs
      match k with
      | 0 =>
        simp only [generate2UpPages, List.get?_cons_zero] at hs
        obtain rfl := Option.some_inj.1 hs
        simp [twoUpPair]
      | k + 1 =>
        simp [generate2UpPages] at hs
  | p :: q :: rest, k, s => by
      intro hs
      match k with
      | 0 =>
        simp only [generate2UpPages, List.get?_cons_zero] at hs
        obtain rfl := Option.some_inj.1 hs
        simp [twoUpPair]
      | k + 1 =>
        simp only [generate2UpPages, List.get?_cons_succ] at hs
        have ih := generate2UpPages_get? bt side rest k s hs
        have h2 : 2 * (k + 1) = 2 * k + 1 + 1 := by ring
        rw [h2]
        simpa using ih

/-- C7: `generatePdf` chooses 2-up packing exactly when the target size is
A4, the native size of the standard is A5, and there are at least two
content pages; in 2-up mode the planner emits one content/outline sheet pair
per two pages (rounded up), pairs the pages in input order with page `2k` in
the top sub-area and page `2k + 1` (when present) in the bottom sub-area,
and leaves the bottom slot of the final pair empty exactly when the page
count is odd. -/
theorem generatePdf_twoUp_packing {α : Type} (bt : BinderType) (ps : PaperSize)
    (side : PageSide) (pages : List α) :
    (use2Up bt ps pages.length = true ↔
      (ps = .A4 ∧ (BINDER_SPECS bt).paperSize = .A5 ∧ 2 ≤ pages.length)) ∧
    (generate2UpPages bt side pages).length = (pages.length + 1) / 2 ∧
    (∀ k s, (generate2UpPages bt side pages).get? k = some s →
      pages.get? (2 * k) = some s.firstPage ∧ s.secondPage = pages.get? (2 * k + 1)) ∧
    (∀ s ∈ generate2UpPages bt side pages,
      s.firstContentArea =
        ⟨0, mmToPoints (PAPER_SIZES .A4).height - mmToPoints (PAPER_SIZES .A5).height,
          mmToPoints (PAPER_SIZES .A5).width, mmToPoints (PAPER_SIZES .A5).height⟩ ∧
      (s.secondPage.isSome = true → s.secondContentArea =
        some ⟨0, 0, mmToPoints (PAPER_SIZES .A5).width, mmToPoints (PAPER_SIZES .A5).height⟩)) ∧
    (∀ s, (generate2UpPages bt side pages).get?
          ((generate2UpPages bt side pages).length - 1) = some s →
      (s.secondPage = none ↔ pages.length % 2 = 1)) := by
  refine ⟨?_, generate2UpPages_length bt side pages, generate2UpPages_get? bt side pages,
    ?_, ?_⟩
  · simp only [use2Up, Bool.and_eq_true, decide_eq_true_eq, gt_iff_lt]
    constructor
    · rintro ⟨⟨h1, h2⟩, h3⟩
      exact ⟨h1, h2, by omega⟩
    · rintro ⟨h1, h2, h3⟩
      exact ⟨⟨h1, h2⟩, by omega⟩
  · intro s hs
    obtain ⟨p, q, rfl⟩ := mem_generate2UpPages bt side pages s hs
    refine ⟨rfl, ?_⟩
    cases q
    · intro hq
      simp [twoUpPair] at hq
    · intro _
      rfl
  · intro s hs
    have hlen2 := generate2UpPages_length bt side pages
    have hpos : 0 < (generate2UpPages bt side pages).length := by
      by_contra hc
      push_neg at hc
      rw [List.get?_eq_none.2 (by omega)] at hs
      cases hs
    obtain ⟨-, hsnd⟩ := generate2UpPages_get? bt side pages _ s hs
    rw [hsnd, List.get?_eq_none, hlen2]
    rw [hlen2] at hpos
    omega

/-- C7 witness: three pages yield two sheet pairs; the second pair carries
page 2 on top and an empty bottom slot since 3 is odd, and the first pair
places page 0 in the top sub-area and page 1 in the bottom sub-area. -/
theorem generatePdf_twoUp_packing_witness :
    use2Up BinderType.a5_20_hole PaperSize.A4 ([0, 1, 2] : List ℕ).length = true ∧
    (generate2UpPages BinderType.a5_20_hole PageSide.left ([0, 1, 2] : List ℕ)).length = 2 ∧
    (([0, 1, 2] : List ℕ).get? 2 =
        some (twoUpPair BinderType.a5_20_hole PageSide.left (2 : ℕ) none).firstPage ∧
      (twoUpPair BinderType.a5_20_hole PageSide.left (2 : ℕ) none).secondPage =
        ([0, 1, 2] : List ℕ).get? 3) ∧
    ((twoUpPair BinderType.a5_20_hole PageSide.left (0 : ℕ) (some 1)).firstContentArea =
        ⟨0, mmToPoints (PAPER_SIZES .A4).height - mmToPoints (PAPER_SIZES .A5).height,
          mmToPoints (PAPER_SIZES .A5).width, mmToPoints (PAPER_SIZES .A5).height⟩ ∧
      ((twoUpPair BinderType.a5_20_hole PageSide.left (0 : ℕ) (some 1)).secondPage.isSome =
          true →
        (twoUpPair BinderType.a5_20_hole PageSide.left (0 : ℕ) (some 1)).secondContentArea =
          some ⟨0, 0, mmToPoints (PAPER_SIZES .A5).width,
            mmToPoints (PAPER_SIZES .A5).height⟩)) ∧
    ((twoUpPair BinderType.a5_20_hole PageSide.left (2 : ℕ) none).secondPage = none ↔
      ([0, 1, 2] : List ℕ).length % 2 = 1) := by
  have h := generatePdf_twoUp_packing BinderType.a5_20_hole PaperSize.A4 PageSide.left
    ([0, 1, 2] : List ℕ)
  refine ⟨h.1.2 ⟨rfl, rfl, by norm_num⟩, by simpa using h.2.1,
    h.2.2.1 1 (twoUpPair BinderType.a5_20_hole PageSide.left 2 none) rfl,
    h.2.2.2.1 (twoUpPair BinderType.a5_20_hole PageSide.left 0 (some 1))
      (by simp [generate2UpPages]), ?_⟩
  have hlast := h.2.2.2.2 (twoUpPair BinderType.a5_20_hole PageSide.left 2 none) ?hget
  · exact hlast
  · rfl

/-- C10: for every sheet height below 184.3 mm — a range overlapping the
representative 100 to 400 mm test range — the first offset returned by the
20-hole standard is `(h − 184.3) / 2`, which is negative, i.e. above the top
edge of the sheet; and neither outline path clamps, filters or rejects hole
positions: both map the position list one-to-one through an affine placement. -/
theorem a5_20_hole_out_of_sheet (h : ℚ) (hlt : h < 184.3) :
    ((BINDER_SPECS .a5_20_hole).getHolePositions h).get? 0 = some ((h - 184.3) / 2) ∧
    (h - 184.3) / 2 < 0 ∧
    (∀ bt ps side is2Up pos, (drawOutline bt ps side is2Up pos).holes.map Circle.y =
      ((BINDER_SPECS bt).getHolePositions
          (PAPER_SIZES (BINDER_SPECS bt).paperSize).height).map fun posY =>
        (drawOutline bt ps side is2Up pos).trimRect.y + mmToPoints posY) ∧
    (∀ bt side aX aY aW aH, (drawOutlineAt bt side aX aY aW aH).holes.map Circle.y =
      ((BINDER_SPECS bt).getHolePositions
          (PAPER_SIZES (BINDER_SPECS bt).paperSize).height).map fun posY =>
        aY + mmToPoints posY) := by
  refine ⟨?_, by linarith, ?_, ?_⟩
  · simp only [BINDER_SPECS, a5_20_hole]
    rw [List.get?_map, List.get?_range (by norm_num)]
    norm_num
  · intro bt ps side is2Up pos
    simp [drawOutline, List.map_map, Function.comp]
  · intro bt side aX aY aW aH
    simp [drawOutlineAt, List.map_map, Function.comp]

/-- C10 witness: at sheet height 100 mm the first hole offset is −42.15 mm. -/
theorem a5_20_hole_out_of_sheet_witness :
    ((BINDER_SPECS .a5_20_hole).getHolePositions 100).get? 0 = some ((100 - 184.3) / 2) ∧
    ((100 : ℚ) - 184.3) / 2 < 0 :=
  ⟨(a5_20_hole_out_of_sheet 100 (by norm_num)).1,
    (a5_20_hole_out_of_sheet 100 (by norm_num)).2.1⟩

/-- Context for the degenerate-area discussion: over the whole configuration
space the resolved content area is strictly positive — the width is at least
128 mm and the height at least 210 mm — so a non-positive width or height is
unreachable, and `getContentArea` indeed has no error path: it returns the
computed record unconditionally. -/
lemma getContentArea_pos (bt : BinderType) (ps : PaperSize) (side : PageSide) (pad : Bool) :
    128 ≤ (getContentArea bt ps side pad).width ∧
    210 ≤ (getContentArea bt ps side pad).height := by
  cases bt <;> cases ps <;> cases side <;> cases pad <;>
    simp [getContentArea, holeMargin, BINDER_SPECS, PAPER_SIZES, a5_20_hole, a5_2_hole,
      a5_6_hole_filofax, a5_6_hole_standard, a4_4_hole, HOLE_DIAMETER] <;>
    norm_num

/-- C9 witness: content 2 by 1 into target 4 by 3 gives fit scale 2. -/
theorem fitScale_fits_and_below_fillScale_witness :
    (2 : ℚ) * calculateFitScale 2 1 4 3 ≤ 4 ∧
    (1 : ℚ) * calculateFitScale 2 1 4 3 ≤ 3 ∧
    ((2 : ℚ) * calculateFitScale 2 1 4 3 = 4 ∨ (1 : ℚ) * calculateFitScale 2 1 4 3 = 3) ∧
    calculateFitScale 2 1 4 3 ≤ calculateFillScale 2 1 4 3 :=
  fitScale_fits_and_below_fillScale 2 1 4 3 (by norm_num) (by norm_num)
    (by norm_num) (by norm_num)

end BinderPrint
